import Mathlib

/-!
# Verification of the RUDP / UDP file-transfer core (minmunui/rudp-vs-tcp)

A shallow embedding, in Lean 4, of the reliable-datagram (RDP) sender and
receiver of `src/rudp.py` and of the best-effort UDP mirror of `src/udp.py`.

Bytes are modelled as natural numbers (values below 256 wherever the code
produces them); byte strings as `List Nat`.  Python `dict`s are modelled as
insertion-ordered association lists whose insert overwrites in place, exactly
as CPython does.  Machine integers are `Nat`/`Int` with explicit `% 2^32`
where the `struct` module packs 32-bit fields.
-/

set_option maxRecDepth 4000

namespace RudpVsTcp

/-- `struct.pack("!I", n)`: the four big-endian bytes of `n % 2^32`.
(`struct.pack` raises for `n ≥ 2^32`; all theorems below stay inside that
range, where the `%`s are the identity.) -/
def pack_u32 (n : Nat) : List Nat :=
  [n / 16777216 % 256, n / 65536 % 256, n / 256 % 256, n % 256]

/-- `struct.unpack("!I", b)` on a 4-byte field: big-endian recomposition.
Applied below only to lists of length exactly 4. -/
def unpack_u32 (b : List Nat) : Nat :=
  match b with
  | [a, b1, c, d] => ((a * 256 + b1) * 256 + c) * 256 + d
  | _ => 0

@[simp] theorem pack_u32_length (n : Nat) : (pack_u32 n).length = 4 := rfl

theorem unpack_pack_u32 (n : Nat) (h : n < 4294967296) :
    unpack_u32 (pack_u32 n) = n := by
  simp only [pack_u32, unpack_u32]
  omega

theorem pack_u32_lt (n : Nat) : ∀ b ∈ pack_u32 n, b < 256 := by
  intro b hb
  simp only [pack_u32, List.mem_cons, List.not_mem_nil, or_false] at hb
  rcases hb with h | h | h | h <;> subst h <;> omega

/-! ## Chunker (`RUDP.send_file`, src/rudp.py lines 124, 138, 152–158)

`chunk_size = buffer_size - REDUNDANCY_SIZE` with `REDUNDANCY_SIZE = 8`;
`total_chunks = math.ceil(file_size / chunk_size)`; the `seq_num`-th call of
`f.read(chunk_size)` yields the bytes `[seq_num * chunk_size, …)` of the file,
at most `chunk_size` of them. -/

/-- `REDUNDANCY_SIZE` of src/rudp.py. -/
def REDUNDANCY_SIZE : Nat := 8

/-- `chunk_size = buffer_size - REDUNDANCY_SIZE` (line 124). -/
def chunk_size (buffer_size : Nat) : Nat := buffer_size - REDUNDANCY_SIZE

/-- `total_chunks = math.ceil(file_size / chunk_size)` (line 138), for a
positive `chunk_size`. -/
def total_chunks (file_size cs : Nat) : Nat := (file_size + cs - 1) / cs

/-- The payload of sequence `i`: what the `i`-th `f.read(chunk_size)` returns
(line 154). -/
def chunk_data (file : List Nat) (cs i : Nat) : List Nat :=
  (file.drop (i * cs)).take cs

/-- The data frame for sequence `i`:
`packet = struct.pack("!II", seq_num, chunk_size) + chunk_data` (line 157).
The length field is the constant `chunk_size`, not `len(chunk_data)`. -/
def data_packet (file : List Nat) (cs i : Nat) : List Nat :=
  pack_u32 i ++ pack_u32 cs ++ chunk_data file cs i

theorem chunk_data_length (file : List Nat) (cs i : Nat) :
    (chunk_data file cs i).length = min cs (file.length - i * cs) := by
  simp [chunk_data]

theorem chunk_data_length_of_not_last (file : List Nat) (cs i : Nat)
    (hcs : 0 < cs) (h : i + 1 < total_chunks file.length cs) :
    (chunk_data file cs i).length = cs := by
  rw [chunk_data_length]
  rcases Nat.lt_or_ge file.length ((i + 1) * cs) with hlt | hge
  · exfalso
    have h3 : (file.length + cs - 1) / cs < i + 2 := by
      rw [Nat.div_lt_iff_lt_mul hcs]
      have hm : (i + 2) * cs = (i + 1) * cs + cs := by ring
      omega
    unfold total_chunks at h
    omega
  · have hm : (i + 1) * cs = i * cs + cs := by ring
    omega

theorem chunk_data_length_le (file : List Nat) (cs i : Nat) :
    (chunk_data file cs i).length ≤ cs := by
  rw [chunk_data_length]; omega

/-! ## CPython `dict`, as an insertion-ordered association list -/

/-- `dict` lookup `m[k]` (as an `Option`): first binding of `k`. -/
def dict_find (m : List (Nat × List Nat)) (k : Nat) : Option (List Nat) :=
  match m with
  | [] => none
  | (k0, v0) :: rest => if k0 = k then some v0 else dict_find rest k

/-- `k in m`. -/
def dict_mem (m : List (Nat × List Nat)) (k : Nat) : Bool :=
  match m with
  | [] => false
  | (k0, _) :: rest => if k0 = k then true else dict_mem rest k

/-- `m[k] = v`: overwrite the existing binding in place, else append. -/
def dict_insert (m : List (Nat × List Nat)) (k : Nat) (v : List Nat) :
    List (Nat × List Nat) :=
  match m with
  | [] => [(k, v)]
  | (k0, v0) :: rest =>
      if k0 = k then (k0, v) :: rest else (k0, v0) :: dict_insert rest k v

/-- `list(m.keys())`. -/
def dict_keys (m : List (Nat × List Nat)) : List Nat := m.map Prod.fst

theorem dict_mem_iff_find (m : List (Nat × List Nat)) (k : Nat) :
    dict_mem m k = true ↔ (dict_find m k).isSome := by
  induction m with
  | nil => simp [dict_mem, dict_find]
  | cons p rest ih =>
      obtain ⟨k0, v0⟩ := p
      by_cases h : k0 = k <;> simp [dict_mem, dict_find, h, ih]

theorem dict_keys_insert (m : List (Nat × List Nat)) (k : Nat) (v : List Nat) :
    dict_keys (dict_insert m k v) =
      if dict_mem m k then dict_keys m else dict_keys m ++ [k] := by
  induction m with
  | nil => simp [dict_insert, dict_keys, dict_mem]
  | cons p rest ih =>
      obtain ⟨k0, v0⟩ := p
      by_cases h : k0 = k
      · simp [dict_insert, dict_keys, dict_mem, h]
      · simp only [dict_insert, dict_keys, dict_mem, h, if_false, if_neg h,
          List.map_cons, ih]
        split <;> simp_all [dict_keys]

theorem dict_find_insert_self (m : List (Nat × List Nat)) (k : Nat)
    (v : List Nat) : dict_find (dict_insert m k v) k = some v := by
  induction m with
  | nil => simp [dict_insert, dict_find]
  | cons p rest ih =>
      obtain ⟨k0, v0⟩ := p
      by_cases h : k0 = k <;> simp [dict_insert, dict_find, h, ih]

theorem dict_find_insert_ne (m : List (Nat × List Nat)) (k k2 : Nat)
    (v : List Nat) (h : k ≠ k2) :
    dict_find (dict_insert m k v) k2 = dict_find m k2 := by
  induction m with
  | nil => simp [dict_insert, dict_find, h]
  | cons p rest ih =>
      obtain ⟨k0, v0⟩ := p
      by_cases h0 : k0 = k <;> simp [dict_insert, dict_find, h0, ih]
      · subst h0; simp [dict_find, h]

/-! ## Receiver, LISTENING state (`RUDP.start_server`, src/rudp.py lines 238–254)

The server does `data, _ = recvfrom(512)` inside a bare `try` (lines 242–248),
then — outside any `try` — `struct.unpack("!II256s", data[:264])` (line 249).
`struct.unpack` raises `struct.error` when fewer than 264 bytes are present,
and that exception propagates out of the `while True` loop: the server loop
aborts.  The filename decode (line 251) is guarded (lines 250–254): a
`UnicodeDecodeError` logs and `continue`s, discarding the frame.

`filename.decode().strip("\x00")` decodes the full 256-byte field and then
trims NUL characters.  Since NUL is a valid single-byte UTF-8 character at
either end, the full field decodes exactly when the NUL-trimmed field does,
so validity of the raw 256-byte field is the faithful test. -/

/-- Is `b` a UTF-8 continuation byte (0x80–0xBF)? -/
def utf8_cont (b : Nat) : Bool := decide (128 ≤ b) && decide (b ≤ 191)

/-- UTF-8 validity of a byte string, per RFC 3629 (what CPython's strict
`bytes.decode()` accepts): no overlong forms, no surrogates, max U+10FFFF. -/
def utf8_valid : List Nat → Bool
  | [] => true
  | b :: rest =>
    if b ≤ 127 then utf8_valid rest
    else if 194 ≤ b ∧ b ≤ 223 then
      match rest with
      | c1 :: rest2 => utf8_cont c1 && utf8_valid rest2
      | [] => false
    else if b = 224 then
      match rest with
      | c1 :: c2 :: rest2 =>
          decide (160 ≤ c1) && decide (c1 ≤ 191) && utf8_cont c2 &&
            utf8_valid rest2
      | _ => false
    else if (225 ≤ b ∧ b ≤ 236) ∨ b = 238 ∨ b = 239 then
      match rest with
      | c1 :: c2 :: rest2 => utf8_cont c1 && utf8_cont c2 && utf8_valid rest2
      | _ => false
    else if b = 237 then
      match rest with
      | c1 :: c2 :: rest2 =>
          decide (128 ≤ c1) && decide (c1 ≤ 159) && utf8_cont c2 &&
            utf8_valid rest2
      | _ => false
    else if b = 240 then
      match rest with
      | c1 :: c2 :: c3 :: rest2 =>
          decide (144 ≤ c1) && decide (c1 ≤ 191) && utf8_cont c2 &&
            utf8_cont c3 && utf8_valid rest2
      | _ => false
    else if 241 ≤ b ∧ b ≤ 243 then
      match rest with
      | c1 :: c2 :: c3 :: rest2 =>
          utf8_cont c1 && utf8_cont c2 && utf8_cont c3 && utf8_valid rest2
      | _ => false
    else if b = 244 then
      match rest with
      | c1 :: c2 :: c3 :: rest2 =>
          decide (128 ≤ c1) && decide (c1 ≤ 143) && utf8_cont c2 &&
            utf8_cont c3 && utf8_valid rest2
      | _ => false
    else false

/-- Outcome of one pass of the server loop in `LISTENING`. -/
inductive ListenOutcome where
  /-- Header accepted: enter `COLLECTING` with these parameters. -/
  | accepted (buffer_size total_chunks : Nat) (filename_field : List Nat)
  /-- Frame discarded (`continue`, line 254): still `LISTENING`. -/
  | discarded
  /-- Uncaught `struct.error` from line 249: the server loop aborts. -/
  | crashed
  deriving DecidableEq

/-- One pass of the `LISTENING` loop body on a received frame `data`
(src/rudp.py lines 242–254). -/
def listening_step (data : List Nat) : ListenOutcome :=
  if data.length < 264 then ListenOutcome.crashed
  else
    let bs := unpack_u32 (data.take 4)
    let tc := unpack_u32 ((data.drop 4).take 4)
    let fname := (data.drop 8).take 256
    if utf8_valid fname then ListenOutcome.accepted bs tc fname
    else ListenOutcome.discarded

/-! ## Receiver, COLLECTING state (src/rudp.py lines 260–313) -/

/-- Python `max` over a non-empty list of naturals (`max(missed_seqs)`,
line 301); `0` for the empty list, on which the code never calls it. -/
def list_max (l : List Nat) : Nat := l.foldl max 0

/-- The receiver's per-transfer state: the chunk map `chunks` (line 260),
the pivot `last_seq_num` (line 264), and the log of NACK payloads passed to
`send_ack` (line 304), in order. -/
structure RecvState where
  chunks : List (Nat × List Nat)
  last_seq_num : Nat
  acks_sent : List (List Nat)
  deriving DecidableEq

/-- State on entering `COLLECTING`: `chunks = {}`,
`last_seq_num = total_chunks - 1` (lines 260, 264). -/
def initial_recv_state (total : Nat) : RecvState :=
  ⟨[], total - 1, []⟩

/-- `missed_seqs = list(set(range(total_chunks)) - set(chunks.keys()))`
(lines 294–296).  CPython iterates the set in an unspecified order; we fix
the ascending one.  Only the set of entries, its emptiness and its maximum
are ever consumed, and all three are order-independent. -/
def missing_seqs (total : Nat) (chunks : List (Nat × List Nat)) : List Nat :=
  (List.range total).filter (fun i => !(dict_mem chunks i))

/-- Result of one body of the `while len(chunks) < total_chunks` loop. -/
inductive CollectResult where
  /-- Normal path: updated state. -/
  | ok (st : RecvState)
  /-- `struct.error` caught at line 306: `is_error = True; break`. -/
  | parse_error
  deriving DecidableEq

/-- One `COLLECTING` iteration on a received datagram `data`
(src/rudp.py lines 276–309).  `struct.unpack("!II", data[:8])` raises when
the datagram is shorter than 8 bytes; otherwise
`chunk_data = data[8 : 8 + chunk_size]` silently truncates to the bytes
actually present, and the pivot logic of lines 292–304 runs. -/
def collect_step (total : Nat) (st : RecvState) (data : List Nat) :
    CollectResult :=
  if data.length < REDUNDANCY_SIZE then CollectResult.parse_error
  else
    let seq_num := unpack_u32 (data.take 4)
    let csz := unpack_u32 ((data.drop 4).take 4)
    let chunk := (data.drop REDUNDANCY_SIZE).take csz
    let chunks2 := dict_insert st.chunks seq_num chunk
    if seq_num = st.last_seq_num then
      let missed := missing_seqs total chunks2
      let last2 := if 0 < missed.length then list_max missed
                   else st.last_seq_num
      CollectResult.ok ⟨chunks2, last2, st.acks_sent ++ [missed]⟩
    else
      CollectResult.ok ⟨chunks2, st.last_seq_num, st.acks_sent⟩

/-- The `while len(chunks) < total_chunks` loop (line 270), fed by a finite
script of arriving datagrams.  `some st` is the `DONE` exit (`is_error`
still false); `none` covers the `ABORTED` exits: a parse error, or the
script running out (in the code, a 5 s idle timeout, lines 310–313). -/
def collect_run (total : Nat) (dgrams : List (List Nat)) (st : RecvState) :
    Option RecvState :=
  if total ≤ st.chunks.length then some st
  else
    match dgrams with
    | [] => none
    | d :: rest =>
      match collect_step total st d with
      | CollectResult.parse_error => none
      | CollectResult.ok st2 => collect_run total rest st2

/-- File reassembly (src/rudp.py lines 329–334): for `i in range(total)`,
write `chunks[i]` when present, else write nothing (a warning is logged). -/
def reassemble (total : Nat) (chunks : List (Nat × List Nat)) : List Nat :=
  ((List.range total).map (fun i => (dict_find chunks i).getD [])).flatten

/-! ## Sender (`RUDP.send_file` and `process_ack`, src/rudp.py lines 68–226)

The reverse (NACK) channel is modelled by a finite script of events, one per
completed `wait_ack` call: either a 500 ms timeout or the arrival of a NACK
carrying a list of signed 32-bit integers. -/

/-- One outcome of a `wait_ack` call (src/rudp.py lines 18–43). -/
inductive AckEvent where
  /-- `socket.timeout` after the 500 ms wait. -/
  | timeout
  /-- A NACK frame arrived, carrying this integer array. -/
  | ack (l : List Int)
  deriving DecidableEq

/-- Python `max` over a non-empty `List Int`
(`max(dropped_seq_numbers)`, line 191); the code only calls it on non-empty
lists (guarded by line 187). -/
def list_max_int : List Int → Int
  | [] => 0
  | a :: t => t.foldl max a

/-- `process_ack` (src/rudp.py lines 68–99).  Returns
`some (outcome, pivot_resends, rest)` where `outcome = some l` models
`wait_ack` returning NACK `l`, `outcome = none` models the
`raise socket.timeout` taken once `retry_count > 5`, `pivot_resends` counts
the `sock.sendto(packet_dict[last_seq_number], …)` retransmissions of line
99, and `rest` is the unconsumed tail of the script.  `none` means the
script ran out while `wait_ack` was still blocking. -/
def process_ack (script : List AckEvent) (retry_count sent : Nat) :
    Option (Option (List Int) × Nat × List AckEvent) :=
  match script with
  | [] => none
  | e :: rest =>
    match e with
    | AckEvent.ack l => some (some l, sent, rest)
    | AckEvent.timeout =>
      if retry_count + 1 > 5 then some (none, sent, rest)
      else process_ack rest (retry_count + 1) (sent + 1)

theorem process_ack_rest_length {script : List AckEvent} :
    ∀ {r s o n rest}, process_ack script r s = some (o, n, rest) →
      rest.length < script.length := by
  induction script with
  | nil => intro r s o n rest h; simp [process_ack] at h
  | cons e tail ih =>
      intro r s o n rest h
      match e with
      | AckEvent.ack l =>
          simp only [process_ack, Option.some.injEq, Prod.mk.injEq] at h
          obtain ⟨h1, h2, h3⟩ := h
          subst h3; simp
      | AckEvent.timeout =>
          simp only [process_ack] at h
          split at h
          · simp only [Option.some.injEq, Prod.mk.injEq] at h
            obtain ⟨h1, h2, h3⟩ := h
            subst h3; simp
          · have := ih h
            simp only [List.length_cons]
            omega

/-- Result of the retransmission loop of `send_file`
(src/rudp.py lines 175–200): the accumulated `losses` list, and the
sequence numbers of every data frame emitted after the initial burst
(pivot retransmissions from `process_ack` followed, on a non-empty NACK,
by `resend_dropped_data` over the listed sequences). -/
structure NackPhase where
  losses : List (List Int)
  emissions : List Int
  deriving DecidableEq

/-- The `while not transfer_complete` loop (src/rudp.py lines 178–200),
starting from pivot `last_seq_number`.  Mirrors the code:
`losses.append` happens for every NACK received (line 183); a
`socket.timeout` escaping `process_ack` appends `[-1]` and breaks
(lines 184–186); an empty NACK completes (lines 187–189); a non-empty one
sets the pivot to its maximum and resends exactly the listed packets
(lines 190–200). -/
def nack_loop_fuel : Nat → List AckEvent → Int → Option NackPhase
  | 0, _, _ => none
  | fuel + 1, script, last_seq_number =>
    match process_ack script 0 0 with
    | none => none
    | some (none, sent, _) =>
        some ⟨[[-1]], List.replicate sent last_seq_number⟩
    | some (some l, sent, rest) =>
        if l.length = 0 then some ⟨[l], List.replicate sent last_seq_number⟩
        else
          match nack_loop_fuel fuel rest (list_max_int l) with
          | none => none
          | some r =>
              some ⟨l :: r.losses,
                    List.replicate sent last_seq_number ++ l ++ r.emissions⟩

/-- The retransmission loop proper.  Each round consumes at least one
script event, so `script.length + 1` units of fuel never run out before
the script does; `nack_loop_fuel_congr` below makes this precise. -/
def nack_loop (script : List AckEvent) (last_seq_number : Int) :
    Option NackPhase :=
  nack_loop_fuel (script.length + 1) script last_seq_number

/-- The observable behaviour of one `send_file` call. -/
structure SendFileModel where
  /-- Was a UDP socket created?  Line 118 runs before anything else. -/
  socket_opened : Bool
  /-- Did an exception escape to the caller?  Never: the `return losses`
  in the `finally` block (line 226) replaces any in-flight exception. -/
  exception_escaped : Bool
  /-- The returned `losses` list. -/
  losses : List (List Int)
  /-- Sequences emitted during the initial burst (lines 152–159). -/
  burst : List Int
  /-- Sequences emitted after the burst (retransmissions). -/
  post : List Int
  deriving DecidableEq

/-- The sequence numbers of the initial burst, `0 … total_chunks − 1`, as
`dict` keys (Python `int`s). -/
def burst_of (total : Nat) : List Int := (List.range total).map Int.ofNat

/-- `RUDP.send_file` (src/rudp.py lines 109–226).  The socket is created
(line 118) before the existence check (line 132); a missing file raises
`FileNotFoundError` (line 134), but the `finally` block ends in
`return losses` (line 226), which discards the in-flight exception and
returns the still-empty `losses` list.  With an existing file, the header
and the initial burst go out and the NACK loop runs with initial pivot
`last_seq_number = len(packet_dict) - 1 = total_chunks - 1` (line 177). -/
def send_file (file_exists : Bool) (file : List Nat) (buffer_size : Nat)
    (script : List AckEvent) : Option SendFileModel :=
  if file_exists = false then
    some ⟨true, false, [], [], []⟩
  else
    match nack_loop script
        ((total_chunks file.length (chunk_size buffer_size) : Int) - 1) with
    | none => none
    | some r =>
        some ⟨true, false, r.losses,
              burst_of (total_chunks file.length (chunk_size buffer_size)),
              r.emissions⟩

/-- How many times `send_file` emitted the data frame of sequence `s`:
once in the burst if `0 ≤ s < total_chunks`, plus every retransmission. -/
def emission_count (m : SendFileModel) (s : Int) : Nat :=
  m.burst.count s + m.post.count s

/-! ## UDP mirror (`UDP.start_server`, src/udp.py lines 241–361) -/

/-- The 12 ASCII bytes of the `b"TRANSFER_END"` sentinel. -/
def TRANSFER_END : List Nat := [84, 82, 65, 78, 83, 70, 69, 82, 95, 69, 78, 68]

/-- The UDP receive loop (src/udp.py lines 241–271) over a script of
datagrams: stop at the `TRANSFER_END` marker, skip datagrams shorter than
12 bytes, and store `data[12 : 12 + data_size]` under the unpacked
sequence.  Script exhaustion models the idle-timeout exit (lines 267–271). -/
def udp_collect (dgrams : List (List Nat))
    (chunks : List (Nat × List Nat)) : List (Nat × List Nat) :=
  match dgrams with
  | [] => chunks
  | d :: rest =>
    if d = TRANSFER_END then chunks
    else if d.length < 12 then udp_collect rest chunks
    else
      udp_collect rest
        (dict_insert chunks (unpack_u32 (d.take 4))
          ((d.drop 12).take (unpack_u32 ((d.drop 8).take 4))))

/-- The sequence numbers the UDP receive loop stores, in arrival order
(with repetitions). -/
def udp_seqs (dgrams : List (List Nat)) : List Nat :=
  match dgrams with
  | [] => []
  | d :: rest =>
    if d = TRANSFER_END then []
    else if d.length < 12 then udp_seqs rest
    else unpack_u32 (d.take 4) :: udp_seqs rest

/-- The reply record of src/udp.py lines 277–359 (the JSON `error` string
is omitted: it is log text only).  `loss_rate` is computed in exact
rational arithmetic in place of Python floats. -/
structure UdpResponse where
  success : Bool
  received_packets : Nat
  expected_packets : Nat
  packet_loss : Int
  loss_rate : ℚ
  deriving DecidableEq

/-- The response computation (src/udp.py lines 277–290, 323, 349,
352–359): `received_packets = len(chunks)`,
`packet_loss = expected_packets - received_packets`,
`loss_rate = packet_loss / expected_packets * 100` when
`expected_packets > 0` else `0`, and `success = True` exactly on the
`packet_loss == 0` branch (line 290). -/
def udp_response (total_chunks : Nat) (chunks : List (Nat × List Nat)) :
    UdpResponse :=
  let received_packets := chunks.length
  let expected_packets := total_chunks
  let packet_loss : Int := (expected_packets : Int) - (received_packets : Int)
  let loss_rate : ℚ :=
    if 0 < expected_packets then
      (packet_loss : ℚ) / (expected_packets : ℚ) * 100
    else 0
  ⟨decide (packet_loss = 0), received_packets, expected_packets,
    packet_loss, loss_rate⟩

/-! ## Filename collision handling

`make_new_filename` lives in the repository's `utils.py`, which is not under
src/ (only its import and call sites are).  It is modelled from the spec;
paths are represented by their stem and extension, since the spec describes
the counter as inserted between the two. -/

/-- The `k`-th candidate name for a path with the given stem and extension:
`name.ext` for `k = 0`, then `name(1).ext`, `name(2).ext`, … -/
def name_candidate (stem ext : String) (k : Nat) : String :=
  if k = 0 then stem ++ ext else stem ++ "(" ++ toString k ++ ")" ++ ext

/-- Bounded search for the first free candidate (among `existing.length + 1`
candidates at least one is free). -/
def mnf_search (existing : List String) (stem ext : String) :
    Nat → Nat → String
  | 0, k => name_candidate stem ext k
  | fuel + 1, k =>
      if name_candidate stem ext k ∈ existing then
        mnf_search existing stem ext fuel (k + 1)
      else name_candidate stem ext k

/-- Modelled from the spec: `make_new_filename` (repository `utils.py`, not
under src/) — "if the target path already exists, append a monotonically
increasing counter to the stem (`name.ext`, `name(1).ext`, `name(2).ext`, …)
before opening": the first candidate that does not collide with an existing
path. -/
def make_new_filename (existing : List String) (stem ext : String) : String :=
  mnf_search existing stem ext (existing.length + 1) 0

/-- The RDP receiver's finalization path choice (src/rudp.py lines 321–329):
`file_path = f"{target_dir}/{filename}"`, then `make_new_filename(file_path)`
is called on line 325 with its return value DISCARDED, and line 329 opens
the original `file_path`. -/
def rudp_finalize_path (existing : List String) (stem ext : String) : String :=
  let _ := make_new_filename existing stem ext
  stem ++ ext

/-- The set of files under `target_dir` after `n` successive transfers of the
same filename to the RDP receiver, starting from an empty directory: each
transfer opens `rudp_finalize_path` with `"wb"` (creating the path if new,
truncating and overwriting it otherwise). -/
def rudp_transfer_files (stem ext : String) : Nat → List String
  | 0 => []
  | n + 1 =>
      let ex := rudp_transfer_files stem ext n
      let p := rudp_finalize_path ex stem ext
      if p ∈ ex then ex else ex ++ [p]

/-! ## Helper lemmas -/

theorem take4_append {l1 l2 : List Nat} (h : l1.length = 4) :
    (l1 ++ l2).take 4 = l1 := by
  rw [List.take_append_of_le_length (by omega), List.take_of_length_le (by omega)]

theorem drop4_append {l1 l2 : List Nat} (h : l1.length = 4) :
    (l1 ++ l2).drop 4 = l2 := by
  rw [← h, List.drop_left]

theorem data_packet_length (file : List Nat) (cs i : Nat) :
    (data_packet file cs i).length = 8 + (chunk_data file cs i).length := by
  simp [data_packet, pack_u32]
  omega

theorem data_packet_seq_field (file : List Nat) (cs i : Nat)
    (hi : i < 4294967296) :
    unpack_u32 ((data_packet file cs i).take 4) = i := by
  rw [data_packet, List.append_assoc, take4_append (pack_u32_length i),
    unpack_pack_u32 i hi]

theorem data_packet_len_field (file : List Nat) (cs i : Nat)
    (hcs : cs < 4294967296) :
    unpack_u32 (((data_packet file cs i).drop 4).take 4) = cs := by
  rw [data_packet, List.append_assoc, drop4_append (pack_u32_length i),
    take4_append (pack_u32_length cs), unpack_pack_u32 cs hcs]

theorem data_packet_payload (file : List Nat) (cs i : Nat) :
    (data_packet file cs i).drop 8 = chunk_data file cs i := by
  rw [data_packet, List.append_assoc, show (8 : Nat) = 4 + 4 from rfl,
    ← List.drop_drop, drop4_append (pack_u32_length i),
    drop4_append (pack_u32_length cs)]

theorem dict_mem_iff_mem_keys (m : List (Nat × List Nat)) (k : Nat) :
    dict_mem m k = true ↔ k ∈ dict_keys m := by
  induction m with
  | nil => simp [dict_mem, dict_keys]
  | cons p rest ih =>
      obtain ⟨k0, v0⟩ := p
      by_cases h : k0 = k <;> simp [dict_mem, dict_keys, h, ih]
      exact fun hk => (h hk.symm).elim

theorem mem_keys_iff_exists (m : List (Nat × List Nat)) (k : Nat) :
    k ∈ dict_keys m ↔ ∃ v, (k, v) ∈ m := by
  induction m with
  | nil => simp [dict_keys]
  | cons p rest ih =>
      obtain ⟨k0, v0⟩ := p
      have hkeys : dict_keys ((k0, v0) :: rest) = k0 :: dict_keys rest := rfl
      by_cases h : k0 = k
      · subst h
        exact iff_of_true (by simp [hkeys]) ⟨v0, List.mem_cons_self _ _⟩
      · rw [hkeys, List.mem_cons, ih]
        constructor
        · rintro (hk2 | ⟨v, hv⟩)
          · exact absurd hk2.symm h
          · exact ⟨v, List.mem_cons_of_mem _ hv⟩
        · rintro ⟨v, hv⟩
          rcases List.mem_cons.mp hv with hv | hv
          · exact absurd (congrArg Prod.fst hv).symm h
          · exact Or.inr ⟨v, hv⟩

theorem dict_find_mem {m : List (Nat × List Nat)} {k : Nat} {v : List Nat}
    (h : dict_find m k = some v) : (k, v) ∈ m := by
  induction m with
  | nil => simp [dict_find] at h
  | cons p rest ih =>
      obtain ⟨k0, v0⟩ := p
      by_cases h0 : k0 = k
      · subst h0
        simp [dict_find] at h
        subst h
        exact List.mem_cons_self _ _
      · simp only [dict_find, if_neg h0] at h
        exact List.mem_cons_of_mem _ (ih h)

theorem dict_insert_entries {m : List (Nat × List Nat)} {k : Nat}
    {v : List Nat} :
    ∀ p ∈ dict_insert m k v, p = (k, v) ∨ p ∈ m := by
  induction m with
  | nil => simp [dict_insert]
  | cons q rest ih =>
      obtain ⟨k0, v0⟩ := q
      intro p hp
      by_cases h0 : k0 = k
      · subst h0
        have he : dict_insert ((k0, v0) :: rest) k0 v = (k0, v) :: rest := by
          simp [dict_insert]
        rw [he, List.mem_cons] at hp
        rcases hp with hp2 | hp2
        · exact Or.inl (by simp [hp2])
        · exact Or.inr (List.mem_cons_of_mem _ hp2)
      · have he : dict_insert ((k0, v0) :: rest) k v =
            (k0, v0) :: dict_insert rest k v := by
          simp [dict_insert, h0]
        rw [he, List.mem_cons] at hp
        rcases hp with hp2 | hp2
        · exact Or.inr (by simp [hp2])
        · rcases ih p hp2 with h | h
          · exact Or.inl h
          · exact Or.inr (List.mem_cons_of_mem _ h)

theorem dict_keys_nodup_insert {m : List (Nat × List Nat)} {k : Nat}
    {v : List Nat} (h : (dict_keys m).Nodup) :
    (dict_keys (dict_insert m k v)).Nodup := by
  rw [dict_keys_insert]
  split
  · exact h
  · next hmem =>
      have : k ∉ dict_keys m := by
        rw [← dict_mem_iff_mem_keys]
        simp [hmem]
      simp [List.nodup_append, h, this]

theorem dict_keys_length (m : List (Nat × List Nat)) :
    (dict_keys m).length = m.length := by
  simp [dict_keys]

theorem dict_keys_insert_toFinset (m : List (Nat × List Nat)) (k : Nat)
    (v : List Nat) :
    (dict_keys (dict_insert m k v)).toFinset =
      insert k (dict_keys m).toFinset := by
  rw [dict_keys_insert]
  split
  · next hmem =>
      have : k ∈ dict_keys m := (dict_mem_iff_mem_keys m k).mp hmem
      rw [Finset.insert_eq_self.mpr (by simpa using this)]
  · simp [Finset.union_comm, Finset.insert_eq]

theorem foldl_max_init_le {α : Type} [LinearOrder α] (l : List α) (a : α) :
    a ≤ l.foldl max a := by
  induction l generalizing a with
  | nil => simp
  | cons b t ih => exact le_trans (le_max_left a b) (ih (max a b))

theorem foldl_max_le_of_mem {α : Type} [LinearOrder α] {l : List α} {x : α}
    (a : α) (h : x ∈ l) : x ≤ l.foldl max a := by
  induction l generalizing a with
  | nil => simp at h
  | cons b t ih =>
      rcases List.mem_cons.mp h with h | h
      · subst h
        exact le_trans (le_max_right a x) (foldl_max_init_le t (max a x))
      · exact ih _ h

theorem foldl_max_mem {α : Type} [LinearOrder α] (l : List α) (a : α) :
    l.foldl max a = a ∨ l.foldl max a ∈ l := by
  induction l generalizing a with
  | nil => simp
  | cons b t ih =>
      rcases ih (max a b) with h | h
      · simp only [List.foldl_cons]
        rcases max_choice a b with hm | hm
        · rw [h, hm]; exact Or.inl rfl
        · rw [h, hm]; exact Or.inr (List.mem_cons_self _ _)
      · exact Or.inr (List.mem_cons_of_mem _ h)

theorem list_max_le {l : List Nat} : ∀ x ∈ l, x ≤ list_max l :=
  fun _ hx => foldl_max_le_of_mem 0 hx

theorem list_max_mem {l : List Nat} (h : l ≠ []) : list_max l ∈ l := by
  rcases foldl_max_mem l 0 with h0 | h0
  · match l, h with
    | x :: t, _ =>
        have hx : x ≤ list_max (x :: t) := list_max_le x (List.mem_cons_self _ _)
        have hz : list_max (x :: t) = 0 := h0
        rw [hz] at hx
        rw [hz, ← Nat.le_zero.mp hx]
        exact List.mem_cons_self _ _
  · exact h0

theorem list_max_int_le {l : List Int} : ∀ x ∈ l, x ≤ list_max_int l := by
  intro x hx
  match l, hx with
  | a :: t, hx =>
      rcases List.mem_cons.mp hx with h | h
      · subst h
        exact foldl_max_init_le t x
      · exact foldl_max_le_of_mem a h

theorem list_max_int_mem {l : List Int} (h : l ≠ []) : list_max_int l ∈ l := by
  match l, h with
  | a :: t, _ =>
      rcases foldl_max_mem t a with h0 | h0
      · rw [list_max_int, h0]
        exact List.mem_cons_self _ _
      · exact List.mem_cons_of_mem _ h0

theorem flatten_chunks (cs : Nat) :
    ∀ (n : Nat) (l : List Nat), l.length ≤ n * cs →
      ((List.range n).map (fun i => (l.drop (i * cs)).take cs)).flatten = l := by
  intro n
  induction n with
  | zero =>
      intro l h
      simp only [Nat.zero_mul, Nat.le_zero] at h
      simp [List.eq_nil_of_length_eq_zero h]
  | succ n ih =>
      intro l h
      rw [List.range_succ_eq_map, List.map_cons, List.flatten_cons,
        List.map_map]
      have hcomp : ((fun i => (l.drop (i * cs)).take cs) ∘ Nat.succ) =
          (fun i => (((l.drop cs).drop (i * cs)).take cs)) := by
        funext i
        simp only [Function.comp_apply, List.drop_drop]
        congr 2
        have := Nat.succ_mul i cs
        omega
      have hlen : (l.drop cs).length ≤ n * cs := by
        rw [List.length_drop]
        have hm : (n + 1) * cs = n * cs + cs := by ring
        omega
      rw [hcomp, ih (l.drop cs) hlen]
      simp [List.take_append_drop]

theorem length_le_total_chunks_mul (len cs : Nat) (hcs : 0 < cs) :
    len ≤ total_chunks len cs * cs := by
  unfold total_chunks
  have h1 := Nat.div_add_mod (len + cs - 1) cs
  have h2 : (len + cs - 1) % cs < cs := Nat.mod_lt _ hcs
  rw [Nat.mul_comm]
  omega

theorem total_chunks_pos (len cs : Nat) (hcs : 0 < cs) (hlen : 0 < len) :
    0 < total_chunks len cs := by
  unfold total_chunks
  exact Nat.div_pos (by omega) hcs

theorem nack_loop_fuel_congr :
    ∀ {f1 f2 : Nat} {script : List AckEvent} {pivot : Int},
      script.length < f1 → script.length < f2 →
      nack_loop_fuel f1 script pivot = nack_loop_fuel f2 script pivot := by
  intro f1
  induction f1 with
  | zero => intro f2 script pivot h1 h2; omega
  | succ f1 ih =>
      intro f2 script pivot h1 h2
      match f2, h2 with
      | f2 + 1, h2 =>
          show nack_loop_fuel (f1 + 1) script pivot =
            nack_loop_fuel (f2 + 1) script pivot
          simp only [nack_loop_fuel]
          match hpa : process_ack script 0 0 with
          | none => rfl
          | some (none, sent, rest) => rfl
          | some (some l, sent, rest) =>
              have hlt := process_ack_rest_length hpa
              by_cases hl : l.length = 0
              · simp [hl]
              · simp only [hl, if_neg hl]
                rw [ih (show rest.length < f1 by omega)
                  (show rest.length < f2 by omega)]

/-- `process_ack` on a script that opens with `t` timeouts (`r + t <= 5`)
followed by a NACK: the NACK is returned after `t` pivot retransmissions. -/
theorem process_ack_timeouts_then_ack :
    ∀ (t r c : Nat) (l : List Int) (rest : List AckEvent), r + t ≤ 5 →
      process_ack (List.replicate t AckEvent.timeout ++ AckEvent.ack l :: rest)
          r c = some (some l, c + t, rest) := by
  intro t
  induction t with
  | zero => intro r c l rest h; simp [process_ack]
  | succ t ih =>
      intro r c l rest h
      rw [List.replicate_succ, List.cons_append]
      show process_ack _ r c = _
      simp only [process_ack]
      rw [if_neg (show ¬(r + 1 > 5) by omega)]
      rw [ih (r + 1) (c + 1) l rest (by omega)]
      have harith : c + 1 + t = c + (t + 1) := by omega
      rw [harith]

/-- `process_ack` on six consecutive timeouts: five pivot retransmissions,
then the `raise socket.timeout` of line 95 of src/rudp.py. -/
theorem process_ack_six_timeouts (rest : List AckEvent) :
    process_ack (List.replicate 6 AckEvent.timeout ++ rest) 0 0 =
      some (none, 5, rest) := by
  simp [process_ack, List.replicate_succ]

/-- One round of the sender loop: `t <= 5` timeouts, then a NACK `l`. -/
theorem nack_loop_round (t : Nat) (ht : t ≤ 5) (l : List Int)
    (rest : List AckEvent) (pivot : Int) :
    nack_loop (List.replicate t AckEvent.timeout ++ AckEvent.ack l :: rest)
        pivot =
      if l.length = 0 then some ⟨[l], List.replicate t pivot⟩
      else
        match nack_loop rest (list_max_int l) with
        | none => none
        | some r =>
            some ⟨l :: r.losses,
                  List.replicate t pivot ++ l ++ r.emissions⟩ := by
  have hlen :
      (List.replicate t AckEvent.timeout ++ AckEvent.ack l :: rest).length =
        t + rest.length + 1 := by
    simp
    omega
  rw [nack_loop, hlen]
  rw [nack_loop_fuel]
  rw [process_ack_timeouts_then_ack t 0 0 l rest (by omega)]
  dsimp only
  by_cases hl : l.length = 0
  · simp [hl]
  · rw [if_neg hl, if_neg hl]
    rw [nack_loop_fuel_congr (show rest.length < t + rest.length + 1 by omega)
      (show rest.length < rest.length + 1 by omega)]
    rw [show nack_loop_fuel (rest.length + 1) rest (list_max_int l) =
      nack_loop rest (list_max_int l) from rfl]
    simp only [Nat.zero_add]

/-- The sender loop under six consecutive timeouts: record `[-1]`, stop. -/
theorem nack_loop_six_timeouts (rest : List AckEvent) (pivot : Int) :
    nack_loop (List.replicate 6 AckEvent.timeout ++ rest) pivot =
      some ⟨[[-1]], List.replicate 5 pivot⟩ := by
  rw [nack_loop]
  rw [show (List.replicate 6 AckEvent.timeout ++ rest).length + 1 =
    (6 + rest.length) + 1 from by simp; omega]
  rw [nack_loop_fuel]
  rw [process_ack_six_timeouts]

/-- Whenever the sender loop returns, its `losses` list is non-empty. -/
theorem nack_loop_losses_ne_nil :
    ∀ {fuel : Nat} {script : List AckEvent} {pivot : Int} {r : NackPhase},
      nack_loop_fuel fuel script pivot = some r → r.losses ≠ [] := by
  intro fuel
  induction fuel with
  | zero => intro script pivot r h; simp [nack_loop_fuel] at h
  | succ fuel ih =>
      intro script pivot r h
      rw [nack_loop_fuel] at h
      split at h
      · exact absurd h (by simp)
      · simp only [Option.some.injEq] at h
        rw [← h]
        simp
      · split at h
        · simp only [Option.some.injEq] at h
          rw [← h]
          simp
        · split at h
          · exact absurd h (by simp)
          · simp only [Option.some.injEq] at h
            rw [← h]
            simp


/-! ## Claims -/

/-- **C2, counterexample.**  The claim says the data frame's
`payload_length` field carries the actual byte count of the payload, with
the last chunk's shorter length "carried in the header".  For the 5-byte
file `[1,2,3,4,5]` with `buffer_size = 12` (`chunk_size = 4`,
`total_chunks = 2`), the last frame (sequence 1) declares `4` in its
length field while the payload that follows is 1 byte: line 157 of
src/rudp.py packs the constant `chunk_size`, never `len(chunk_data)`. -/
theorem C2_counterexample :
    chunk_size 12 = 4 ∧ total_chunks 5 4 = 2 ∧
    unpack_u32 (((data_packet [1, 2, 3, 4, 5] 4 1).drop 4).take 4) = 4 ∧
    (chunk_data [1, 2, 3, 4, 5] 4 1).length = 1 := by
  decide

/-- **C2 (amended).**  For every sequence `i` the data frame's
`payload_length` field carries the constant `chunk_size = buffer_size − 8`
— including the final sequence, whose actual payload may be shorter.  The
actual payload is exactly `chunk_size` bytes for every sequence but the
last, and never longer than `chunk_size`. -/
theorem C2_payload_length_amended (file : List Nat) (buffer_size i : Nat)
    (hcs : 0 < chunk_size buffer_size)
    (hcs32 : chunk_size buffer_size < 4294967296) :
    unpack_u32 (((data_packet file (chunk_size buffer_size) i).drop 4).take 4)
        = chunk_size buffer_size ∧
    (chunk_data file (chunk_size buffer_size) i).length
        ≤ chunk_size buffer_size ∧
    (i + 1 < total_chunks file.length (chunk_size buffer_size) →
      (chunk_data file (chunk_size buffer_size) i).length
        = chunk_size buffer_size) := by
  refine ⟨data_packet_len_field _ _ _ hcs32, chunk_data_length_le _ _ _, ?_⟩
  intro hlast
  exact chunk_data_length_of_not_last _ _ _ hcs hlast

/-- **C2, witness** at `file = [1,2,3,4,5]`, `buffer_size = 12`, `i = 0`. -/
theorem C2_payload_length_witness :
    unpack_u32 (((data_packet [1, 2, 3, 4, 5] (chunk_size 12) 0).drop 4).take 4)
        = chunk_size 12 ∧
    (chunk_data [1, 2, 3, 4, 5] (chunk_size 12) 0).length ≤ chunk_size 12 ∧
    (0 + 1 < total_chunks ([1, 2, 3, 4, 5] : List Nat).length (chunk_size 12) →
      (chunk_data [1, 2, 3, 4, 5] (chunk_size 12) 0).length = chunk_size 12) :=
  C2_payload_length_amended [1, 2, 3, 4, 5] 12 0 (by decide) (by decide)

/-- **C6, counterexample.**  The claim says an under-length first frame is
discarded and the Receiver keeps listening.  A 10-byte frame makes
`struct.unpack("!II256s", data[:264])` (line 249 of src/rudp.py, outside
the `try`) raise `struct.error`, which aborts the server loop. -/
theorem C6_counterexample :
    listening_step (List.replicate 10 0) = ListenOutcome.crashed ∧
    ListenOutcome.crashed ≠ ListenOutcome.discarded := by
  decide

/-- **C6 (amended).**  A header frame of at least 264 bytes whose 256-byte
filename field fails UTF-8 decoding is discarded and the Receiver keeps
listening without advancing state; a valid one is accepted; but a frame
shorter than 264 bytes raises an uncaught `struct.error` that aborts the
server loop. -/
theorem C6_garbled_header_amended (data : List Nat) :
    (264 ≤ data.length → utf8_valid ((data.drop 8).take 256) = false →
      listening_step data = ListenOutcome.discarded) ∧
    (264 ≤ data.length → utf8_valid ((data.drop 8).take 256) = true →
      listening_step data =
        ListenOutcome.accepted (unpack_u32 (data.take 4))
          (unpack_u32 ((data.drop 4).take 4)) ((data.drop 8).take 256)) ∧
    (data.length < 264 → listening_step data = ListenOutcome.crashed) := by
  refine ⟨?_, ?_, ?_⟩
  · intro hlen hbad
    rw [listening_step, if_neg (by omega)]
    simp [hbad]
  · intro hlen hok
    rw [listening_step, if_neg (by omega)]
    simp [hok]
  · intro hlen
    rw [listening_step, if_pos hlen]

/-- **C6, witness**: a 264-byte frame whose filename field is 256 copies of
the invalid start byte `0x80` is discarded; a 1-byte frame crashes. -/
theorem C6_witness :
    listening_step (List.replicate 8 0 ++ List.replicate 256 128) =
      ListenOutcome.discarded ∧
    listening_step [0] = ListenOutcome.crashed :=
  ⟨(C6_garbled_header_amended (List.replicate 8 0 ++ List.replicate 256 128)).1
      (by decide) (by decide),
   (C6_garbled_header_amended [0]).2.2 (by decide)⟩

/-- On a datagram of at least 8 bytes, the `COLLECTING` step succeeds and
records `data[8 : 8 + declared]` under the decoded sequence. -/
theorem collect_step_ok (total : Nat) (st : RecvState) (data : List Nat)
    (h : 8 ≤ data.length) :
    ∃ st2, collect_step total st data = CollectResult.ok st2 ∧
      st2.chunks = dict_insert st.chunks (unpack_u32 (data.take 4))
        ((data.drop 8).take (unpack_u32 ((data.drop 4).take 4))) := by
  rw [collect_step]
  rw [if_neg (by simp only [REDUNDANCY_SIZE]; omega)]
  by_cases hpiv : unpack_u32 (data.take 4) = st.last_seq_num
  · exact ⟨_, by rw [if_pos hpiv], rfl⟩
  · exact ⟨_, by rw [if_neg hpiv], rfl⟩

/-- **C10.**  In `COLLECTING`, on any datagram of at least 8 bytes the
step is total and stores, under the decoded sequence, the bytes after the
8-byte header truncated to the declared payload length; a declared length
exceeding the bytes present yields all the bytes present (Python slice
semantics); only a datagram shorter than 8 bytes takes the
`struct.error` abort branch. -/
theorem C10_collect_step_total (total : Nat) (st : RecvState)
    (data : List Nat) :
    (8 ≤ data.length →
      ∃ st2, collect_step total st data = CollectResult.ok st2 ∧
        st2.chunks = dict_insert st.chunks (unpack_u32 (data.take 4))
          ((data.drop 8).take (unpack_u32 ((data.drop 4).take 4)))) ∧
    (data.length < 8 →
      collect_step total st data = CollectResult.parse_error) ∧
    ((data.drop 8).length ≤ unpack_u32 ((data.drop 4).take 4) →
      (data.drop 8).take (unpack_u32 ((data.drop 4).take 4)) = data.drop 8) := by
  refine ⟨?_, ?_, ?_⟩
  · exact collect_step_ok total st data
  · intro hlen
    rw [collect_step, if_pos (by simp only [REDUNDANCY_SIZE]; omega)]
  · intro hlen
    exact List.take_of_length_le hlen

/-- **C10, witness**: the final frame of the 5-byte file (declared length
4, actual payload 1 byte) is accepted and stored truncated; a 3-byte
datagram takes the parse-error branch. -/
theorem C10_witness :
    (∃ st2, collect_step 2 (initial_recv_state 2)
        (data_packet [1, 2, 3, 4, 5] 4 1) = CollectResult.ok st2 ∧
      st2.chunks = dict_insert (initial_recv_state 2).chunks
        (unpack_u32 ((data_packet [1, 2, 3, 4, 5] 4 1).take 4))
        (((data_packet [1, 2, 3, 4, 5] 4 1).drop 8).take
          (unpack_u32 (((data_packet [1, 2, 3, 4, 5] 4 1).drop 4).take 4)))) ∧
    collect_step 2 (initial_recv_state 2) [0, 0, 0] =
      CollectResult.parse_error :=
  ⟨(C10_collect_step_total 2 (initial_recv_state 2)
      (data_packet [1, 2, 3, 4, 5] 4 1)).1 (by decide),
   (C10_collect_step_total 2 (initial_recv_state 2) [0, 0, 0]).2.1
      (by decide)⟩

/-- **C5.**  The claim (and the spec's collision rule) is the clear intent;
the code drops it: src/rudp.py line 325 calls `make_new_filename(file_path)`
but discards its return value — a pointless call unless a slip, and
src/udp.py line 293 shows the intended use
(`filepath = make_new_filename(filepath)`).  Evaluated: after two transfers
of `x.bin` the directory holds only `x.bin` (the second transfer overwrote
the first), although the modelled `make_new_filename` would have returned
`x(1).bin`. -/
theorem C5_collision_overwrite :
    rudp_transfer_files "x" ".bin" 2 = ["x.bin"] ∧
    make_new_filename ["x.bin"] "x" ".bin" = "x(1).bin" ∧
    "x(1).bin" ∉ rudp_transfer_files "x" ".bin" 2 := by
  decide

/-- **C4, counterexample.**  The claim says a `send_file` on a missing
source file surfaces the error and does not open a socket.  The code
creates the UDP socket first (line 118 of src/rudp.py, before the
existence check of line 132), and the `FileNotFoundError` raised on line
134 is swallowed by the `return losses` in the `finally` block (line 226):
the caller receives a normal empty list, no exception. -/
theorem C4_counterexample :
    (send_file false [] 12 []).map SendFileModel.socket_opened = some true ∧
    (send_file false [] 12 []).map SendFileModel.exception_escaped =
      some false ∧
    (send_file false [] 12 []).map SendFileModel.losses = some [] := by
  decide

/-- **C4 (amended).**  On a missing source file, `send_file` has already
created its socket, raises `FileNotFoundError` internally, but the
`return losses` in the `finally` block suppresses the exception: the
caller receives the empty list `[]` — which is still distinguishable from
any run that reaches the NACK loop, since those always return a non-empty
list. -/
theorem C4_missing_file_amended (file : List Nat) (buffer_size : Nat)
    (script : List AckEvent) :
    send_file false file buffer_size script = some ⟨true, false, [], [], []⟩ ∧
    (∀ m, send_file true file buffer_size script = some m →
      m.losses ≠ []) := by
  constructor
  · rw [send_file, if_pos rfl]
  · intro m h
    rw [send_file, if_neg (by simp)] at h
    match hn : nack_loop script
        ((total_chunks file.length (chunk_size buffer_size) : Int) - 1) with
    | none => rw [hn] at h; simp at h
    | some r =>
        rw [hn] at h
        simp only [Option.some.injEq] at h
        rw [← h]
        exact nack_loop_losses_ne_nil hn

/-- **C4, witness** at `file = [7]`, `buffer_size = 12`, a one-ACK script. -/
theorem C4_witness :
    send_file false [7] 12 [AckEvent.ack []] = some ⟨true, false, [], [], []⟩ ∧
    (⟨true, false, [[]], [0], []⟩ : SendFileModel).losses ≠ [] :=
  ⟨(C4_missing_file_amended [7] 12 [AckEvent.ack []]).1,
   (C4_missing_file_amended [7] 12 [AckEvent.ack []]).2
      ⟨true, false, [[]], [0], []⟩ (by decide)⟩

/-- Auxiliary: the initial burst emits `total_chunks − 1` exactly once. -/
theorem burst_count_pivot (total : Nat) (hpos : 0 < total) :
    (burst_of total).count ((total : Int) - 1) = 1 := by
  have hcast : ((total : Int) - 1) = Int.ofNat (total - 1) := by
    simp only [Int.ofNat_eq_coe]
    omega
  rw [burst_of, hcast,
    List.count_map_of_injective _ Int.ofNat (fun a b hab => by
      simpa using hab)]
  exact List.count_eq_one_of_mem (List.nodup_range total)
    (List.mem_range.mpr (by omega))

/-- **C3, counterexample.**  The claim says five consecutive 500 ms
timeout windows with no NACK put the Sender in `FAILED` with a `[-1]`
loss event.  With the script "five timeouts, then an empty NACK", five
consecutive windows pass with no NACK, yet `send_file` completes cleanly
with `losses = [[]]` — `retry_count > 5` (line 93 of src/rudp.py) first
holds on the sixth consecutive timeout. -/
theorem C3_counterexample :
    (send_file true [0] 9
        (List.replicate 5 AckEvent.timeout ++ [AckEvent.ack []])).map
      SendFileModel.losses = some [[]] ∧
    ([[]] : List (List Int)).getLast? ≠ some [-1] := by
  decide

/-- **C3 (amended).**  The Sender enters `FAILED` on the sixth
consecutive timeout window on the same pivot (five timeouts only produce
five pivot retransmissions, after which it is still waiting: an empty
NACK then completes the transfer cleanly).  Under total reverse-channel
loss the pivot packet is emitted exactly 6 times (initial burst plus 5
timeout retransmits) and `send_file` returns a list whose last element is
`[-1]`. -/
theorem C3_timeout_escalation (file : List Nat) (buffer_size : Nat)
    (rest rest2 : List AckEvent) (t : Nat) (pivot : Int)
    (hlen : 0 < file.length) (hcs : 0 < chunk_size buffer_size)
    (ht : t ≤ 5) :
    (∃ m, send_file true file buffer_size
        (List.replicate 6 AckEvent.timeout ++ rest) = some m ∧
      m.losses = [[-1]] ∧ m.losses.getLast? = some [-1] ∧
      emission_count m
        ((total_chunks file.length (chunk_size buffer_size) : Int) - 1)
          = 6) ∧
    nack_loop (List.replicate t AckEvent.timeout ++ AckEvent.ack [] :: rest2)
        pivot = some ⟨[[]], List.replicate t pivot⟩ := by
  constructor
  · rw [send_file, if_neg (by simp)]
    rw [nack_loop_six_timeouts]
    refine ⟨_, rfl, rfl, rfl, ?_⟩
    rw [emission_count]
    have htot : 0 < total_chunks file.length (chunk_size buffer_size) :=
      total_chunks_pos _ _ hcs hlen
    simp only
    rw [burst_count_pivot _ htot, List.count_replicate]
    simp
  · rw [nack_loop_round t ht [] rest2 pivot]
    simp

/-- **C3, witness** at `file = [0]`, `buffer_size = 9`, `t = 5`. -/
theorem C3_witness :
    (∃ m, send_file true [0] 9
        (List.replicate 6 AckEvent.timeout ++ []) = some m ∧
      m.losses = [[-1]] ∧ m.losses.getLast? = some [-1] ∧
      emission_count m
        ((total_chunks ([0] : List Nat).length (chunk_size 9) : Int) - 1)
          = 6) ∧
    nack_loop (List.replicate 5 AckEvent.timeout ++ AckEvent.ack [] :: [])
        0 = some ⟨[[]], List.replicate 5 0⟩ :=
  C3_timeout_escalation [0] 9 [] [] 5 0 (by decide) (by decide) (by decide)

/-- A reverse-channel script made of NACK rounds: round `(t, l)` is `t`
timeout windows followed by the arrival of NACK `l`. -/
def round_script (rounds : List (Nat × List Int)) : List AckEvent :=
  (rounds.map
    (fun p => List.replicate p.1 AckEvent.timeout ++ [AckEvent.ack p.2])).flatten

/-- **C8.**  `send_file` returns one list per NACK round, in round order;
a zero-length NACK means "transfer complete" and the Sender stops exactly
then (the events in `extra`, after the empty NACK, are never consumed),
so on clean completion the returned list's final element is the empty
list.  Rounds before the last carry non-empty NACKs and at most 5
timeouts each. -/
theorem C8_rounds_in_order (rs : List (Nat × List Int)) (t : Nat)
    (extra : List AckEvent) (pivot : Int)
    (hrs : ∀ p ∈ rs, p.1 ≤ 5 ∧ p.2 ≠ []) (ht : t ≤ 5) :
    ∃ em, nack_loop (round_script (rs ++ [(t, [])]) ++ extra) pivot =
        some ⟨rs.map Prod.snd ++ [[]], em⟩ ∧
      (rs.map Prod.snd ++ [[]]).getLast? = some ([] : List Int) := by
  induction rs generalizing pivot with
  | nil =>
      refine ⟨List.replicate t pivot, ?_, by rw [List.getLast?_concat]⟩
      have hscr : round_script ([] ++ [(t, [])]) ++ extra =
          List.replicate t AckEvent.timeout ++ AckEvent.ack [] :: extra := by
        simp [round_script]
      rw [hscr, nack_loop_round t ht [] extra pivot]
      simp
  | cons p rs ih =>
      obtain ⟨t0, l0⟩ := p
      obtain ⟨ht0, hl0⟩ := hrs (t0, l0) (List.mem_cons_self _ _)
      obtain ⟨em, hem, hlast⟩ :=
        ih (list_max_int l0) (fun q hq => hrs q (List.mem_cons_of_mem _ hq))
      refine ⟨List.replicate t0 pivot ++ l0 ++ em, ?_, ?_⟩
      · have hscr : round_script (((t0, l0) :: rs) ++ [(t, [])]) ++ extra =
            List.replicate t0 AckEvent.timeout ++
              AckEvent.ack l0 :: (round_script (rs ++ [(t, [])]) ++ extra) := by
          simp [round_script]
        rw [hscr, nack_loop_round t0 ht0 l0 _ pivot,
          if_neg (by simpa using hl0), hem]
        exact rfl
      · rw [List.getLast?_concat]

/-- **C8, witness**: the spec's scenario S2 script — one NACK `[5,17,100]`
then an empty NACK; trailing events are ignored. -/
theorem C8_witness :
    ∃ em, nack_loop (round_script ([(0, [5, 17, 100])] ++ [(0, [])]) ++
        [AckEvent.timeout]) 709 =
      some ⟨[(0, ([5, 17, 100] : List Int))].map Prod.snd ++ [[]], em⟩ ∧
    ([(0, ([5, 17, 100] : List Int))].map Prod.snd ++ [[]]).getLast? =
      some ([] : List Int) :=
  C8_rounds_in_order [(0, [5, 17, 100])] 0 [AckEvent.timeout] 709
    (by decide) (by decide)

/-- **C7.**  Pivot tracking, both sides.  (b) The Receiver enters
`COLLECTING` with pivot `total_chunks − 1`.  (a) When a data frame's
sequence equals the pivot, the missing set is exactly
`[0, total_chunks) ∖ keys(chunk_map)` (after recording the frame), and if
non-empty the Receiver sends a NACK carrying precisely that set and makes
its true maximum the new pivot.  (c) The Sender runs its NACK loop from
initial pivot `total_chunks − 1`.  (d) After a non-empty NACK `l` the
Sender retransmits exactly the listed packets and re-enters the wait with
pivot `max l`. -/
theorem C7_pivot_protocol (total : Nat) (st : RecvState) (data : List Nat)
    (file : List Nat) (buffer_size : Nat) (script : List AckEvent)
    (m : SendFileModel) (t : Nat) (l : List Int) (rest : List AckEvent)
    (pivot : Int) (r : NackPhase)
    (hdata : 8 ≤ data.length)
    (hseq : unpack_u32 (data.take 4) = st.last_seq_num)
    (hm : send_file true file buffer_size script = some m)
    (ht : t ≤ 5) (hl : l ≠ [])
    (hr : nack_loop rest (list_max_int l) = some r) :
    (initial_recv_state total).last_seq_num = total - 1 ∧
    (∀ x, x ∈ missing_seqs total (dict_insert st.chunks
        (unpack_u32 (data.take 4))
        ((data.drop 8).take (unpack_u32 ((data.drop 4).take 4)))) ↔
      (x < total ∧ dict_mem (dict_insert st.chunks
        (unpack_u32 (data.take 4))
        ((data.drop 8).take (unpack_u32 ((data.drop 4).take 4)))) x
          = false)) ∧
    (missing_seqs total (dict_insert st.chunks (unpack_u32 (data.take 4))
        ((data.drop 8).take (unpack_u32 ((data.drop 4).take 4)))) ≠ [] →
      collect_step total st data = CollectResult.ok
        ⟨dict_insert st.chunks (unpack_u32 (data.take 4))
            ((data.drop 8).take (unpack_u32 ((data.drop 4).take 4))),
          list_max (missing_seqs total (dict_insert st.chunks
            (unpack_u32 (data.take 4))
            ((data.drop 8).take (unpack_u32 ((data.drop 4).take 4))))),
          st.acks_sent ++ [missing_seqs total (dict_insert st.chunks
            (unpack_u32 (data.take 4))
            ((data.drop 8).take (unpack_u32 ((data.drop 4).take 4))))]⟩ ∧
      list_max (missing_seqs total (dict_insert st.chunks
          (unpack_u32 (data.take 4))
          ((data.drop 8).take (unpack_u32 ((data.drop 4).take 4))))) ∈
        missing_seqs total (dict_insert st.chunks (unpack_u32 (data.take 4))
          ((data.drop 8).take (unpack_u32 ((data.drop 4).take 4)))) ∧
      (∀ x ∈ missing_seqs total (dict_insert st.chunks
          (unpack_u32 (data.take 4))
          ((data.drop 8).take (unpack_u32 ((data.drop 4).take 4)))),
        x ≤ list_max (missing_seqs total (dict_insert st.chunks
          (unpack_u32 (data.take 4))
          ((data.drop 8).take (unpack_u32 ((data.drop 4).take 4))))))) ∧
    nack_loop script
        ((total_chunks file.length (chunk_size buffer_size) : Int) - 1) =
      some ⟨m.losses, m.post⟩ ∧
    (nack_loop (List.replicate t AckEvent.timeout ++ AckEvent.ack l :: rest)
        pivot =
      some ⟨l :: r.losses, List.replicate t pivot ++ l ++ r.emissions⟩ ∧
     list_max_int l ∈ l ∧ ∀ x ∈ l, x ≤ list_max_int l) := by
  refine ⟨rfl, ?_, ?_, ?_, ?_, list_max_int_mem hl, list_max_int_le⟩
  · intro x
    simp [missing_seqs, List.mem_filter, List.mem_range]
  · intro hne
    have hstep : collect_step total st data = CollectResult.ok
        ⟨dict_insert st.chunks (unpack_u32 (data.take 4))
            ((data.drop 8).take (unpack_u32 ((data.drop 4).take 4))),
          list_max (missing_seqs total (dict_insert st.chunks
            (unpack_u32 (data.take 4))
            ((data.drop 8).take (unpack_u32 ((data.drop 4).take 4))))),
          st.acks_sent ++ [missing_seqs total (dict_insert st.chunks
            (unpack_u32 (data.take 4))
            ((data.drop 8).take (unpack_u32 ((data.drop 4).take 4))))]⟩ := by
      have hlen : 0 < (missing_seqs total (dict_insert st.chunks
          (unpack_u32 (data.take 4))
          ((data.drop 8).take (unpack_u32 ((data.drop 4).take 4))))).length :=
        List.length_pos.mpr hne
      simp only [collect_step, REDUNDANCY_SIZE]
      rw [if_neg (by omega), if_pos hseq, if_pos hlen]
    exact ⟨hstep, list_max_mem hne, list_max_le⟩
  · rw [send_file, if_neg (by simp)] at hm
    match hn : nack_loop script
        ((total_chunks file.length (chunk_size buffer_size) : Int) - 1) with
    | none => rw [hn] at hm; simp at hm
    | some r0 =>
        rw [hn] at hm
        simp only [Option.some.injEq] at hm
        rw [← hm]
  · rw [nack_loop_round t ht l rest pivot,
      if_neg (by simpa using hl), hr]

/-- **C7, witness** at concrete inputs: receiver state `initial_recv_state 2`
receiving the pivot frame of the 5-byte file; sender transferring `[7]`
with one empty NACK; one non-empty NACK `[0]` round. -/
theorem C7_witness :
    (initial_recv_state 2).last_seq_num = 2 - 1 ∧
    (∀ x, x ∈ missing_seqs 2 (dict_insert (initial_recv_state 2).chunks (unpack_u32 ((data_packet [1, 2, 3, 4, 5] 4 1).take 4)) (((data_packet [1, 2, 3, 4, 5] 4 1).drop 8).take (unpack_u32 (((data_packet [1, 2, 3, 4, 5] 4 1).drop 4).take 4)))) ↔
      (x < 2 ∧ dict_mem (dict_insert (initial_recv_state 2).chunks (unpack_u32 ((data_packet [1, 2, 3, 4, 5] 4 1).take 4)) (((data_packet [1, 2, 3, 4, 5] 4 1).drop 8).take (unpack_u32 (((data_packet [1, 2, 3, 4, 5] 4 1).drop 4).take 4)))) x = false)) ∧
    (missing_seqs 2 (dict_insert (initial_recv_state 2).chunks (unpack_u32 ((data_packet [1, 2, 3, 4, 5] 4 1).take 4)) (((data_packet [1, 2, 3, 4, 5] 4 1).drop 8).take (unpack_u32 (((data_packet [1, 2, 3, 4, 5] 4 1).drop 4).take 4)))) ≠ [] →
      collect_step 2 (initial_recv_state 2) (data_packet [1, 2, 3, 4, 5] 4 1)
          = CollectResult.ok
        ⟨dict_insert (initial_recv_state 2).chunks (unpack_u32 ((data_packet [1, 2, 3, 4, 5] 4 1).take 4)) (((data_packet [1, 2, 3, 4, 5] 4 1).drop 8).take (unpack_u32 (((data_packet [1, 2, 3, 4, 5] 4 1).drop 4).take 4))),
          list_max (missing_seqs 2 (dict_insert (initial_recv_state 2).chunks (unpack_u32 ((data_packet [1, 2, 3, 4, 5] 4 1).take 4)) (((data_packet [1, 2, 3, 4, 5] 4 1).drop 8).take (unpack_u32 (((data_packet [1, 2, 3, 4, 5] 4 1).drop 4).take 4))))),
          (initial_recv_state 2).acks_sent ++ [missing_seqs 2 (dict_insert (initial_recv_state 2).chunks (unpack_u32 ((data_packet [1, 2, 3, 4, 5] 4 1).take 4)) (((data_packet [1, 2, 3, 4, 5] 4 1).drop 8).take (unpack_u32 (((data_packet [1, 2, 3, 4, 5] 4 1).drop 4).take 4))))]⟩ ∧
      list_max (missing_seqs 2 (dict_insert (initial_recv_state 2).chunks (unpack_u32 ((data_packet [1, 2, 3, 4, 5] 4 1).take 4)) (((data_packet [1, 2, 3, 4, 5] 4 1).drop 8).take (unpack_u32 (((data_packet [1, 2, 3, 4, 5] 4 1).drop 4).take 4))))) ∈ missing_seqs 2 (dict_insert (initial_recv_state 2).chunks (unpack_u32 ((data_packet [1, 2, 3, 4, 5] 4 1).take 4)) (((data_packet [1, 2, 3, 4, 5] 4 1).drop 8).take (unpack_u32 (((data_packet [1, 2, 3, 4, 5] 4 1).drop 4).take 4)))) ∧
      (∀ x ∈ missing_seqs 2 (dict_insert (initial_recv_state 2).chunks (unpack_u32 ((data_packet [1, 2, 3, 4, 5] 4 1).take 4)) (((data_packet [1, 2, 3, 4, 5] 4 1).drop 8).take (unpack_u32 (((data_packet [1, 2, 3, 4, 5] 4 1).drop 4).take 4)))), x ≤ list_max (missing_seqs 2 (dict_insert (initial_recv_state 2).chunks (unpack_u32 ((data_packet [1, 2, 3, 4, 5] 4 1).take 4)) (((data_packet [1, 2, 3, 4, 5] 4 1).drop 8).take (unpack_u32 (((data_packet [1, 2, 3, 4, 5] 4 1).drop 4).take 4))))))) ∧
    nack_loop [AckEvent.ack []]
        ((total_chunks ([7] : List Nat).length (chunk_size 12) : Int) - 1) =
      some ⟨(⟨true, false, [[]], [0], []⟩ : SendFileModel).losses, (⟨true, false, [[]], [0], []⟩ : SendFileModel).post⟩ ∧
    (nack_loop (List.replicate 0 AckEvent.timeout ++
        AckEvent.ack [0] :: [AckEvent.ack []]) 1 =
      some ⟨[0] :: (⟨[[]], []⟩ : NackPhase).losses,
        List.replicate 0 (1 : Int) ++ [0] ++ (⟨[[]], []⟩ : NackPhase).emissions⟩ ∧
     list_max_int [0] ∈ ([0] : List Int) ∧
     ∀ x ∈ ([0] : List Int), x ≤ list_max_int [0]) :=
  C7_pivot_protocol 2 (initial_recv_state 2) (data_packet [1, 2, 3, 4, 5] 4 1)
    [7] 12 [AckEvent.ack []] ⟨true, false, [[]], [0], []⟩ 0 [0]
    [AckEvent.ack []] 1 ⟨[[]], []⟩ (by decide) (by decide) (by decide)
    (by decide) (by decide) (by decide)

theorem udp_collect_keys_nodup :
    ∀ (dgrams : List (List Nat)) (m : List (Nat × List Nat)),
      (dict_keys m).Nodup → (dict_keys (udp_collect dgrams m)).Nodup := by
  intro dgrams
  induction dgrams with
  | nil => intro m h; exact h
  | cons d rest ih =>
      intro m h
      rw [udp_collect]
      by_cases hend : d = TRANSFER_END
      · rw [if_pos hend]; exact h
      · rw [if_neg hend]
        by_cases hlen : d.length < 12
        · rw [if_pos hlen]; exact ih m h
        · rw [if_neg hlen]
          exact ih _ (dict_keys_nodup_insert h)

theorem udp_collect_keys_toFinset :
    ∀ (dgrams : List (List Nat)) (m : List (Nat × List Nat)),
      (dict_keys (udp_collect dgrams m)).toFinset =
        (dict_keys m).toFinset ∪ (udp_seqs dgrams).toFinset := by
  intro dgrams
  induction dgrams with
  | nil => intro m; simp [udp_collect, udp_seqs]
  | cons d rest ih =>
      intro m
      rw [udp_collect, udp_seqs]
      by_cases hend : d = TRANSFER_END
      · rw [if_pos hend, if_pos hend]; simp
      · rw [if_neg hend, if_neg hend]
        by_cases hlen : d.length < 12
        · rw [if_pos hlen, if_pos hlen]; exact ih m
        · rw [if_neg hlen, if_neg hlen, ih, dict_keys_insert_toFinset]
          simp [Finset.insert_union, Finset.union_insert]

/-- **C9.**  For every UDP-mirror reception (any datagram script), the
reply record satisfies: `received_packets` is the number of distinct
sequences stored, `expected_packets = total_chunks`,
`packet_loss = expected_packets − received_packets`,
`loss_rate = packet_loss / expected_packets * 100` (whenever
`expected_packets > 0`; the code returns `0` for an empty transfer), and
`success = true` exactly when `packet_loss = 0`. -/
theorem C9_udp_reply (total : Nat) (dgrams : List (List Nat)) :
    (udp_response total (udp_collect dgrams [])).received_packets =
      (udp_seqs dgrams).toFinset.card ∧
    (udp_response total (udp_collect dgrams [])).expected_packets = total ∧
    (udp_response total (udp_collect dgrams [])).packet_loss =
      (total : Int) -
        ((udp_response total (udp_collect dgrams [])).received_packets :
          Int) ∧
    (0 < total →
      (udp_response total (udp_collect dgrams [])).loss_rate =
        ((udp_response total (udp_collect dgrams [])).packet_loss : ℚ) /
          (total : ℚ) * 100) ∧
    ((udp_response total (udp_collect dgrams [])).success = true ↔
      (udp_response total (udp_collect dgrams [])).packet_loss = 0) := by
  have hnodup : (dict_keys (udp_collect dgrams [])).Nodup :=
    udp_collect_keys_nodup dgrams [] (by simp [dict_keys])
  have hcard : (udp_collect dgrams []).length =
      (udp_seqs dgrams).toFinset.card := by
    rw [← dict_keys_length, ← List.toFinset_card_of_nodup hnodup,
      udp_collect_keys_toFinset]
    simp [dict_keys]
  refine ⟨?_, rfl, rfl, ?_, ?_⟩
  · simp only [udp_response]
    exact hcard
  · intro hpos
    simp only [udp_response, if_pos hpos]
  · simp only [udp_response]
    exact decide_eq_true_iff

/-- **C9, witness**: `total_chunks = 2`, one data frame (sequence 0) then
the terminator — one distinct sequence received, loss 1, rate 50 %,
`success = false`. -/
theorem C9_witness :
    (udp_response 2 (udp_collect [pack_u32 0 ++ pack_u32 2 ++ pack_u32 1 ++
        [55], TRANSFER_END] [])).received_packets =
      (udp_seqs [pack_u32 0 ++ pack_u32 2 ++ pack_u32 1 ++ [55],
        TRANSFER_END]).toFinset.card ∧
    (udp_response 2 (udp_collect [pack_u32 0 ++ pack_u32 2 ++ pack_u32 1 ++
        [55], TRANSFER_END] [])).expected_packets = 2 ∧
    (udp_response 2 (udp_collect [pack_u32 0 ++ pack_u32 2 ++ pack_u32 1 ++
        [55], TRANSFER_END] [])).packet_loss =
      (2 : Int) - ((udp_response 2 (udp_collect [pack_u32 0 ++ pack_u32 2 ++
        pack_u32 1 ++ [55], TRANSFER_END] [])).received_packets : Int) ∧
    (0 < 2 →
      (udp_response 2 (udp_collect [pack_u32 0 ++ pack_u32 2 ++ pack_u32 1 ++
          [55], TRANSFER_END] [])).loss_rate =
        ((udp_response 2 (udp_collect [pack_u32 0 ++ pack_u32 2 ++
          pack_u32 1 ++ [55], TRANSFER_END] [])).packet_loss : ℚ) /
          ((2 : Nat) : ℚ) * 100) ∧
    ((udp_response 2 (udp_collect [pack_u32 0 ++ pack_u32 2 ++ pack_u32 1 ++
        [55], TRANSFER_END] [])).success = true ↔
      (udp_response 2 (udp_collect [pack_u32 0 ++ pack_u32 2 ++ pack_u32 1 ++
        [55], TRANSFER_END] [])).packet_loss = 0) :=
  C9_udp_reply 2 [pack_u32 0 ++ pack_u32 2 ++ pack_u32 1 ++ [55],
    TRANSFER_END]

/-- The `COLLECTING` step on the encoded data frame of sequence `i`
records exactly `chunk_data file cs i` under key `i`. -/
theorem collect_step_on_packet (file : List Nat) (cs total i : Nat)
    (hcs32 : cs < 4294967296) (hi32 : i < 4294967296) (st : RecvState) :
    ∃ st2, collect_step total st (data_packet file cs i) =
        CollectResult.ok st2 ∧
      st2.chunks = dict_insert st.chunks i (chunk_data file cs i) := by
  obtain ⟨st2, hok, hch⟩ := collect_step_ok total st (data_packet file cs i)
    (by rw [data_packet_length]; omega)
  refine ⟨st2, hok, ?_⟩
  rw [hch, data_packet_seq_field _ _ _ hi32,
    data_packet_len_field _ _ _ hcs32, data_packet_payload,
    List.take_of_length_le (chunk_data_length_le file cs i)]

/-- Invariant of the `COLLECTING` loop: when every arriving datagram is
one of the Sender's data frames, the chunk map only ever holds correct
bindings `(i, chunk_data file cs i)` with distinct keys, and a `DONE`
exit holds at least `total` of them. -/
theorem collect_run_good (file : List Nat) (cs total : Nat)
    (hcs32 : cs < 4294967296) (htot32 : total ≤ 4294967296) :
    ∀ (dgrams : List (List Nat)) (st : RecvState),
      (∀ d ∈ dgrams, ∃ i, i < total ∧ d = data_packet file cs i) →
      (∀ p ∈ st.chunks, p.1 < total ∧ p.2 = chunk_data file cs p.1) →
      (dict_keys st.chunks).Nodup →
      ∀ st2, collect_run total dgrams st = some st2 →
        (∀ p ∈ st2.chunks, p.1 < total ∧ p.2 = chunk_data file cs p.1) ∧
        (dict_keys st2.chunks).Nodup ∧ total ≤ st2.chunks.length := by
  intro dgrams
  induction dgrams with
  | nil =>
      intro st _ hgood hnodup st2 hrun
      rw [collect_run] at hrun
      split at hrun
      · next hle =>
          simp only [Option.some.injEq] at hrun
          rw [← hrun]
          exact ⟨hgood, hnodup, hle⟩
      · simp at hrun
  | cons d rest ih =>
      intro st hdg hgood hnodup st2 hrun
      rw [collect_run] at hrun
      split at hrun
      · next hle =>
          simp only [Option.some.injEq] at hrun
          rw [← hrun]
          exact ⟨hgood, hnodup, hle⟩
      · obtain ⟨i, hi, hd⟩ := hdg d (List.mem_cons_self _ _)
        obtain ⟨stm, hok, hch⟩ :=
          collect_step_on_packet file cs total i hcs32 (by omega) st
        rw [← hd] at hok
        rw [hok] at hrun
        refine ih stm (fun q hq => hdg q (List.mem_cons_of_mem _ hq)) ?_ ?_
          st2 hrun
        · intro p hp
          rw [hch] at hp
          rcases dict_insert_entries p hp with hp2 | hp2
          · rw [hp2]
            exact ⟨hi, rfl⟩
          · exact hgood p hp2
        · rw [hch]
          exact dict_keys_nodup_insert hnodup

/-- Endgame of a `DONE` transfer: a chunk map with correct distinct
bindings and at least `total` of them holds every key of
`[0, total)`, each mapped to its chunk. -/
theorem chunks_complete (file : List Nat) (cs total : Nat)
    (m : List (Nat × List Nat))
    (hgood : ∀ p ∈ m, p.1 < total ∧ p.2 = chunk_data file cs p.1)
    (hnodup : (dict_keys m).Nodup) (hlen : total ≤ m.length) :
    ∀ i, i < total → dict_mem m i = true ∧
      dict_find m i = some (chunk_data file cs i) := by
  have hsub : (dict_keys m).toFinset ⊆ Finset.range total := by
    intro k hk
    rw [List.mem_toFinset, mem_keys_iff_exists] at hk
    obtain ⟨v, hv⟩ := hk
    exact Finset.mem_range.mpr (hgood (k, v) hv).1
  have hcardle : (Finset.range total).card ≤ (dict_keys m).toFinset.card := by
    rw [Finset.card_range, List.toFinset_card_of_nodup hnodup,
      dict_keys_length]
    exact hlen
  have heq : (dict_keys m).toFinset = Finset.range total :=
    Finset.eq_of_subset_of_card_le hsub hcardle
  intro i hi
  have hmem : i ∈ dict_keys m := by
    rw [← List.mem_toFinset, heq]
    exact Finset.mem_range.mpr hi
  have hmemb : dict_mem m i = true := (dict_mem_iff_mem_keys m i).mpr hmem
  refine ⟨hmemb, ?_⟩
  have hsome : (dict_find m i).isSome := (dict_mem_iff_find m i).mp hmemb
  match hfind : dict_find m i with
  | none => rw [hfind] at hsome; simp at hsome
  | some v =>
      have hv := dict_find_mem hfind
      exact congrArg some ((hgood (i, v) hv).2)

/-- **C1.**  For every transfer in which each delivered datagram is one of
the Sender's data frames (in any order, possibly duplicated, nothing
else), and whose `COLLECTING` loop terminates in `DONE`, the Receiver's
chunk map contains every key in `[0, total_chunks)`, and the file written
in sequence order is byte-identical to the source file — in particular it
has exactly `file_size` bytes. -/
theorem C1_done_transfer (file : List Nat) (buffer_size : Nat)
    (dgrams : List (List Nat)) (st : RecvState)
    (hcs : 0 < chunk_size buffer_size)
    (hcs32 : chunk_size buffer_size < 4294967296)
    (htot32 : total_chunks file.length (chunk_size buffer_size) ≤ 4294967296)
    (hdg : ∀ d ∈ dgrams,
      ∃ i ∈ List.range (total_chunks file.length (chunk_size buffer_size)),
        d = data_packet file (chunk_size buffer_size) i)
    (hrun : collect_run (total_chunks file.length (chunk_size buffer_size))
        dgrams
        (initial_recv_state (total_chunks file.length (chunk_size
          buffer_size))) = some st) :
    (∀ i, i < total_chunks file.length (chunk_size buffer_size) →
      dict_mem st.chunks i = true) ∧
    reassemble (total_chunks file.length (chunk_size buffer_size)) st.chunks
      = file ∧
    (reassemble (total_chunks file.length (chunk_size buffer_size))
      st.chunks).length = file.length := by
  obtain ⟨hgood, hnodup, hlen⟩ :=
    collect_run_good file (chunk_size buffer_size)
      (total_chunks file.length (chunk_size buffer_size)) hcs32 htot32
      dgrams
      (initial_recv_state (total_chunks file.length (chunk_size buffer_size)))
      (fun d hd => by
        obtain ⟨i, hi, hdi⟩ := hdg d hd
        exact ⟨i, List.mem_range.mp hi, hdi⟩)
      (by intro p hp; simp [initial_recv_state] at hp)
      (by simp [initial_recv_state, dict_keys])
      st hrun
  have hcomplete := chunks_complete file (chunk_size buffer_size)
    (total_chunks file.length (chunk_size buffer_size)) st.chunks hgood
    hnodup hlen
  have hre : reassemble (total_chunks file.length (chunk_size buffer_size))
      st.chunks = file := by
    rw [reassemble]
    have hmap : (List.range (total_chunks file.length
        (chunk_size buffer_size))).map
          (fun i => (dict_find st.chunks i).getD []) =
        (List.range (total_chunks file.length (chunk_size buffer_size))).map
          (fun i => chunk_data file (chunk_size buffer_size) i) := by
      apply List.map_congr_left
      intro i hi
      rw [(hcomplete i (List.mem_range.mp hi)).2]
      rfl
    rw [hmap]
    exact flatten_chunks (chunk_size buffer_size) _ file
      (length_le_total_chunks_mul file.length (chunk_size buffer_size) hcs)
  exact ⟨fun i hi => (hcomplete i hi).1, hre, by rw [hre]⟩

/-- **C1, witness**: the two frames of the 5-byte file, reordered with a
duplicate of frame 0; the run reaches `DONE` after two distinct frames,
every key is present, and the reassembled file is byte-identical. -/
theorem C1_witness :
    (∀ i, i < total_chunks ([1, 2, 3, 4, 5] : List Nat).length
        (chunk_size 12) →
      dict_mem (RecvState.mk [(0, [1, 2, 3, 4]), (1, [5])] 1 [[]]).chunks i
        = true) ∧
    reassemble (total_chunks ([1, 2, 3, 4, 5] : List Nat).length
        (chunk_size 12))
      (RecvState.mk [(0, [1, 2, 3, 4]), (1, [5])] 1 [[]]).chunks
      = [1, 2, 3, 4, 5] ∧
    (reassemble (total_chunks ([1, 2, 3, 4, 5] : List Nat).length
        (chunk_size 12))
      (RecvState.mk [(0, [1, 2, 3, 4]), (1, [5])] 1 [[]]).chunks).length
      = ([1, 2, 3, 4, 5] : List Nat).length :=
  C1_done_transfer [1, 2, 3, 4, 5] 12
    [data_packet [1, 2, 3, 4, 5] 4 0, data_packet [1, 2, 3, 4, 5] 4 1,
      data_packet [1, 2, 3, 4, 5] 4 0]
    (RecvState.mk [(0, [1, 2, 3, 4]), (1, [5])] 1 [[]])
    (by decide) (by decide) (by decide) (by decide) (by decide)

end RudpVsTcp
